import Mathlib

/-!
# Tabwise smart tab-switching: a shallow embedding

This file embeds the smart tab-switching / tab-binding subsystem of the
`tabwise` browser extension (`src/sidepanel.js`) in Lean 4 and proves the
specified properties of it.

Embedded source functions (names kept from the source):
* `matchesUrl` — domain-level URL matcher (`sidepanel.js`, `matchesUrl`);
* `updateFavoriteBinding`, `updateWorkspaceItemBinding` — binding writes;
* `clickFavorite`, `openWorkspaceItem` — the smart-switch click handlers
  (`handleClickFavorite`, `handleOpenWorkspaceItem`);
* `handleTabRemovedFavorites`, `handleTabRemovedWorkspaces` — the
  `chrome.tabs.onRemoved` binding-invalidation listener.

Host browser APIs (`new URL`, `chrome.tabs.*`, `chrome.windows.*`) are
external collaborators; they are modelled as explicit state passing over a
`Host` record, with injectable failure sets standing for rejected host
calls.  JavaScript truthiness on nullable numbers (`if (x)` with `x` a
number or `null`) is modelled explicitly: `none` and `some 0` are falsy.
-/

namespace Tabwise

/-! ## Model of the host WHATWG `new URL` constructor

`matchesUrl` only uses `new URL(s).hostname`.  We model the ASCII fragment
of URL parsing it relies on: a scheme (letter head, then letters, digits,
`+`, `-`, `.`), then `://`, then an authority whose userinfo (up to the
last `@`) and port (after `:`, digits only) are stripped; the hostname is
lowercased, as the URL standard does.  A parse failure (the constructor
throwing) is `none`. -/

def isSchemeChar (c : Char) : Bool :=
  c.isAlpha || c.isDigit || c == '+' || c == '-' || c == '.'

/-- Split a character list at the first `:`; `none` if there is no `:`. -/
def splitColon : List Char → Option (List Char × List Char)
  | [] => none
  | c :: cs =>
    if c = ':' then some ([], cs)
    else (splitColon cs).map (fun p => (c :: p.1, p.2))

/-- The authority part: everything up to the first `/`, `?` or `#`. -/
def takeAuthority (cs : List Char) : List Char :=
  cs.takeWhile (fun c => !(c == '/' || c == '?' || c == '#'))

/-- Strip userinfo: keep only what follows the last `@`. -/
def dropUserinfo (cs : List Char) : List Char :=
  (cs.reverse.takeWhile (fun c => c ≠ '@')).reverse

/-- The host part of an authority without userinfo: up to the first `:`. -/
def takeHostPart (cs : List Char) : List Char :=
  cs.takeWhile (fun c => c ≠ ':')

/-- The port part (characters after the first `:`), if a `:` is present. -/
def portPart (cs : List Char) : Option (List Char) :=
  (splitColon cs).map (fun p => p.2)

/-- Characters the host component may not contain. -/
def isForbiddenHostChar (c : Char) : Bool :=
  c == ' ' || c == '@' || c == '[' || c == ']' || c == '\\' || c == '<' ||
  c == '>' || c == '^' || c == '|'

/-- Hostname extraction, modelling `new URL(s).hostname` (lowercased by the
URL standard); `none` models the constructor throwing `TypeError`. -/
def parseHostname (s : String) : Option String := do
  let (scheme, rest) ← splitColon s.toList
  match scheme with
  | [] => none
  | c :: cs' =>
    if !c.isAlpha then none
    else if !(cs'.all isSchemeChar) then none
    else
      match rest with
      | '/' :: '/' :: tail =>
        let auth := takeAuthority tail
        let hostport := dropUserinfo auth
        let host := takeHostPart hostport
        let portOk := match portPart hostport with
          | none => true
          | some p => p.all Char.isDigit
        if host = [] then none
        else if host.any isForbiddenHostChar then none
        else if !portOk then none
        else some (String.mk (host.map Char.toLower))
      | _ => none

/-- `matchesUrl` (`sidepanel.js`): domain-level matching; compares the two
hostnames, returning `false` when either URL fails to parse (the source's
`try { ... } catch { return false }`). -/
def matchesUrl (tabUrl targetUrl : String) : Bool :=
  match parseHostname tabUrl, parseHostname targetUrl with
  | some h1, some h2 => h1 == h2
  | _, _ => false

/-! ## Data model -/

/-- A snapshot of an open browser tab, as mirrored from the host. -/
structure Tab where
  id : Nat
  url : String
  windowId : Nat
  active : Bool
deriving DecidableEq, Repr

/-- A favorite or workspace item: a persisted logical target carrying its
binding pair (`lastBoundTabId`, `lastBoundAt`). -/
structure Item where
  id : Nat
  url : String
  lastBoundTabId : Option Nat
  lastBoundAt : Option Nat
deriving DecidableEq, Repr

/-- A workspace: a named collection of items (name elided: no claim uses
it). -/
structure Workspace where
  items : List Item
deriving DecidableEq, Repr

/-- JavaScript truthiness of a nullable tab id: `null` and `0` are falsy. -/
def truthyId : Option Nat → Bool
  | none => false
  | some n => n ≠ 0

/-! ## Model of the host tab / window APIs

`Host` carries the open tabs, the id the host will assign to the next
created tab, the clock (`Date.now()`), and failure-injection sets: a call
to `chrome.tabs.update` on a tab id in `failUpdate` rejects (standing for
e.g. the tab closing between a check and the call), `chrome.windows.update`
on a window id in `failWindowUpdate` rejects, and `chrome.tabs.create`
rejects when `failCreate` is set. -/
structure Host where
  tabs : List Tab
  nextTabId : Nat
  currentWindowId : Nat
  now : Nat
  failUpdate : List Nat
  failWindowUpdate : List Nat
  failCreate : Bool
deriving DecidableEq, Repr

/-- `chrome.tabs.get(id).catch(() => null)`: lookup, never throws. -/
def tabsGet (h : Host) (tid : Nat) : Option Tab :=
  h.tabs.find? (fun t => t.id == tid)

/-- `chrome.tabs.query({ currentWindow: true })`. -/
def tabsQuery (h : Host) : List Tab :=
  h.tabs.filter (fun t => t.windowId == h.currentWindowId)

/-- The tab a successful `chrome.tabs.create({ url })` call returns. -/
def newTabOf (h : Host) (url : String) : Tab :=
  ⟨h.nextTabId, url, h.currentWindowId, true⟩

/-- The host state after a successful `chrome.tabs.create({ url })`. -/
def applyCreate (h : Host) (url : String) : Host :=
  { h with
    tabs := (h.tabs.map (fun u =>
      if u.windowId == h.currentWindowId then { u with active := false } else u))
      ++ [newTabOf h url],
    nextTabId := h.nextTabId + 1 }

/-- `chrome.tabs.create({ url })`: the new tab gets id `nextTabId`, lives in
the current window and becomes active there; rejects iff `failCreate`. -/
def tabsCreate (h : Host) (url : String) : Except Unit (Tab × Host) :=
  if h.failCreate then .error () else .ok (newTabOf h url, applyCreate h url)

/-- The host state after a successful `chrome.tabs.update(tid, { active:
true })` on a tab living in window `wid`. -/
def applyActivate (h : Host) (tid wid : Nat) : Host :=
  { h with tabs := h.tabs.map (fun t =>
    if t.id == tid then { t with active := true }
    else if t.windowId == wid then { t with active := false }
    else t) }

/-- `chrome.tabs.update(tid, { active: true })`: activates the tab inside
its window; rejects when the id is in `failUpdate` or the tab is gone. -/
def tabsActivate (h : Host) (tid : Nat) : Except Unit Host :=
  if tid ∈ h.failUpdate then .error () else
    match tabsGet h tid with
    | none => .error ()
    | some target => .ok (applyActivate h tid target.windowId)

/-- `chrome.tabs.update(tid, { url })`, used fire-and-forget by `openUrl`:
a rejection is unobserved, so this is total. -/
def tabsSetUrlFF (h : Host) (tid : Nat) (url : String) : Host :=
  if tid ∈ h.failUpdate then h
  else if (tabsGet h tid).isNone then h
  else { h with tabs := h.tabs.map (fun t =>
    if t.id == tid then { t with url := url } else t) }

/-- `chrome.windows.update(wid, { focused: true })`; which window is focused
is not tracked by any claim, so success leaves the state unchanged. -/
def windowsFocus (h : Host) (wid : Nat) : Except Unit Host :=
  if wid ∈ h.failWindowUpdate then .error () else .ok h

/-- `chrome.tabs.create({ url })` fire-and-forget (no `await`): a rejection
is an unobserved unhandled promise rejection. -/
def tabsCreateFF (h : Host) (url : String) : Host :=
  match tabsCreate h url with
  | .ok p => p.2
  | .error _ => h

/-- `openUrl(url, mode)` (`sidepanel.js:1568`): `new-tab` creates a tab;
any other mode loads the url in the active tab of the current window,
creating a tab if there is none.  All host calls here are fire-and-forget
callback style, so failures are unobserved. -/
def openUrl (h : Host) (url : String) (mode : String) : Host :=
  if mode = "new-tab" then tabsCreateFF h url
  else
    match (h.tabs.filter (fun t => t.active && t.windowId == h.currentWindowId)).head? with
    | some t => tabsSetUrlFF h t.id url
    | none => tabsCreateFF h url

/-! ## Binding store -/

/-- The `lastBoundAt` value the binding writers compute: the source's
`tabId ? Date.now() : null` — JS truthiness, so tab id `0` yields `null`. -/
def boundAtOf (tabId : Option Nat) (now : Nat) : Option Nat :=
  if truthyId tabId then some now else none

/-- Merging the binding pair `{ lastBoundTabId, lastBoundAt }` into an item
when its id matches, leaving other items untouched. -/
def patchItem (targetId : Nat) (tid at_ : Option Nat) (i : Item) : Item :=
  if i.id == targetId then { i with lastBoundTabId := tid, lastBoundAt := at_ } else i

/-- Modelled from the spec: `Storage.updateFavorite(favId, updates)` — the
Storage module is not under `src/`; per the spec's persisted-storage
contract it merges the given fields into the favorite with matching id. -/
def storageUpdateFavorite (favs : List Item) (favId : Nat)
    (tid at_ : Option Nat) : List Item :=
  favs.map (patchItem favId tid at_)

/-- `updateFavoriteBinding` (`sidepanel.js:811`): persists
`lastBoundTabId := tabId` and `lastBoundAt := tabId ? Date.now() : null`. -/
def updateFavoriteBinding (favs : List Item) (favId : Nat)
    (tabId : Option Nat) (now : Nat) : List Item :=
  storageUpdateFavorite favs favId tabId (boundAtOf tabId now)

/-- Modelled from the spec: `Storage.updateWorkspaceItem(wsId, itemId,
updates)` — the Storage module is not under `src/`; it merges the given
fields into the item with matching id inside the given workspace. -/
def storageUpdateWorkspaceItem (w : Workspace) (itemId : Nat)
    (tid at_ : Option Nat) : Workspace :=
  { w with items := w.items.map (patchItem itemId tid at_) }

/-- `updateWorkspaceItemBinding` (`sidepanel.js:822`): walks the workspaces
in order, and in the first one containing the item persists
`lastBoundTabId := tabId`, `lastBoundAt := tabId ? Date.now() : null`,
then returns. -/
def updateWorkspaceItemBinding (wss : List Workspace) (itemId : Nat)
    (tabId : Option Nat) (now : Nat) : List Workspace :=
  match wss with
  | [] => []
  | w :: rest =>
    if w.items.any (fun i => i.id == itemId) then
      storageUpdateWorkspaceItem w itemId tabId (boundAtOf tabId now) :: rest
    else
      w :: updateWorkspaceItemBinding rest itemId tabId now

/-! ## The smart switcher (click handlers) -/

/-- The fallback URL search's scan predicate (the source's
`tabs.find(tab => { if (!tab.url) return false; return matchesUrl(tab.url,
item.url); })`): skip url-less tabs, then domain-match the item's url. -/
def fallbackPred (itemUrl : String) (t : Tab) : Bool :=
  t.url ≠ "" && matchesUrl t.url itemUrl

/-- Which code path of a click handler ran, read off the source's
distinguishing `console.log` lines / the spec's action names. -/
inductive SwitchAction where
  /-- Shift+Click force-new: `created-forced`. -/
  | createdForced
  /-- bound tab alive and focused: `focused-bound`. -/
  | focusedBound
  /-- fallback search found a domain match: `focused-found`. -/
  | focusedFound
  /-- fallback search found nothing, created a tab: `created-new`. -/
  | createdNew
  /-- the `catch` branch ran `openUrl(url, 'new-tab')`. -/
  | fallbackOpen
  /-- non-smart-switch mode: plain `openUrl`. -/
  | openedPlain
deriving DecidableEq, Repr

/-- Result of a click handler: either it completed (with the action that
ran, the updated item collection and host), or an exception escaped the
handler into the UI layer. -/
inductive Outcome (σ : Type) where
  | done (action : SwitchAction) (st : σ) (h : Host)
  | errorEscaped (st : σ) (h : Host)
deriving DecidableEq, Repr

/-- The click event as the handlers read it. -/
structure ClickEvent where
  shiftKey : Bool
deriving DecidableEq, Repr

/-- `mode || state.preferences.openBehavior` — JS `||`, so the empty string
also falls back to the preference. -/
def openModeOf (mode : Option String) (pref : String) : String :=
  match mode with
  | none => pref
  | some s => if s = "" then pref else s

/-- The fallback URL search (step 3) for a favorite: scan the current
window's tabs for the first domain match; focus-and-bind it, else
create-and-bind. -/
def fallbackSearchFavorite (favs : List Item) (h : Host) (fav : Item) :
    Except Unit (SwitchAction × List Item × Host) :=
  match (tabsQuery h).find? (fallbackPred fav.url) with
  | some matchingTab => do
    let h1 ← tabsActivate h matchingTab.id
    pure (.focusedFound,
      updateFavoriteBinding favs fav.id (some matchingTab.id) h1.now, h1)
  | none => do
    let (newTab, h1) ← tabsCreate h fav.url
    pure (.createdNew,
      updateFavoriteBinding favs fav.id (some newTab.id) h1.now, h1)

/-- Steps 2–3 of the smart switch for a favorite: the body of the source's
`try` block — the binding check (`if (fav.lastBoundTabId)`, JS truthiness),
returning `focused-bound` when the bound tab is alive, clearing the stale
binding otherwise, then falling through to the fallback URL search. -/
def smartSwitchFavoriteTry (favs : List Item) (h : Host) (fav : Item) :
    Except Unit (SwitchAction × List Item × Host) :=
  match fav.lastBoundTabId with
  | some btid =>
    if btid ≠ 0 then
      match tabsGet h btid with
      | some boundTab => do
        let h1 ← tabsActivate h boundTab.id
        let h2 ← if boundTab.windowId ≠ 0 then windowsFocus h1 boundTab.windowId
                 else pure h1
        pure (.focusedBound, favs, h2)
      | none =>
        -- bound tab was closed: clear binding, fall through
        fallbackSearchFavorite (updateFavoriteBinding favs fav.id none h.now) h fav
    else fallbackSearchFavorite favs h fav
  | none => fallbackSearchFavorite favs h fav

/-- `handleClickFavorite` (`sidepanel.js:573`): the full handler.  In
smart-switch mode with an event, Shift+Click force-creates **outside** the
`try`, then the `try` runs steps 2–3 with the `catch` degrading to
`openUrl(url, 'new-tab')` (no rebinding); otherwise plain `openUrl`. -/
def clickFavorite (favs : List Item) (h : Host) (fav : Item)
    (mode : Option String) (pref : String) (event : Option ClickEvent) :
    Outcome (List Item) :=
  let openMode := openModeOf mode pref
  match event with
  | some ev =>
    if openMode = "smart-switch" then
      if ev.shiftKey then
        match tabsCreate h fav.url with
        | .error _ => .errorEscaped favs h
        | .ok (newTab, h1) =>
          .done .createdForced
            (updateFavoriteBinding favs fav.id (some newTab.id) h1.now) h1
      else
        match smartSwitchFavoriteTry favs h fav with
        | .ok (a, favs1, h1) => .done a favs1 h1
        | .error _ => .done .fallbackOpen favs (openUrl h fav.url "new-tab")
    else .done .openedPlain favs (openUrl h fav.url openMode)
  | none => .done .openedPlain favs (openUrl h fav.url openMode)

/-- The fallback URL search (step 3) for a workspace item (duplicated in
the source). -/
def fallbackSearchWorkspace (wss : List Workspace) (h : Host) (item : Item) :
    Except Unit (SwitchAction × List Workspace × Host) :=
  match (tabsQuery h).find? (fallbackPred item.url) with
  | some matchingTab => do
    let h1 ← tabsActivate h matchingTab.id
    pure (.focusedFound,
      updateWorkspaceItemBinding wss item.id (some matchingTab.id) h1.now, h1)
  | none => do
    let (newTab, h1) ← tabsCreate h item.url
    pure (.createdNew,
      updateWorkspaceItemBinding wss item.id (some newTab.id) h1.now, h1)

/-- Steps 2–3 of the smart switch for a workspace item: the body of the
`try` block in `handleOpenWorkspaceItem` (duplicated in the source). -/
def smartSwitchWorkspaceTry (wss : List Workspace) (h : Host) (item : Item) :
    Except Unit (SwitchAction × List Workspace × Host) :=
  match item.lastBoundTabId with
  | some btid =>
    if btid ≠ 0 then
      match tabsGet h btid with
      | some boundTab => do
        let h1 ← tabsActivate h boundTab.id
        let h2 ← if boundTab.windowId ≠ 0 then windowsFocus h1 boundTab.windowId
                 else pure h1
        pure (.focusedBound, wss, h2)
      | none =>
        fallbackSearchWorkspace (updateWorkspaceItemBinding wss item.id none h.now) h item
    else fallbackSearchWorkspace wss h item
  | none => fallbackSearchWorkspace wss h item

/-- `handleOpenWorkspaceItem` (`sidepanel.js:742`): same structure as
`handleClickFavorite`, writing through `updateWorkspaceItemBinding`. -/
def openWorkspaceItem (wss : List Workspace) (h : Host) (item : Item)
    (mode : Option String) (pref : String) (event : Option ClickEvent) :
    Outcome (List Workspace) :=
  let openMode := openModeOf mode pref
  match event with
  | some ev =>
    if openMode = "smart-switch" then
      if ev.shiftKey then
        match tabsCreate h item.url with
        | .error _ => .errorEscaped wss h
        | .ok (newTab, h1) =>
          .done .createdForced
            (updateWorkspaceItemBinding wss item.id (some newTab.id) h1.now) h1
      else
        match smartSwitchWorkspaceTry wss h item with
        | .ok (a, wss1, h1) => .done a wss1 h1
        | .error _ => .done .fallbackOpen wss (openUrl h item.url "new-tab")
    else .done .openedPlain wss (openUrl h item.url openMode)
  | none => .done .openedPlain wss (openUrl h item.url openMode)

/-! ## The `chrome.tabs.onRemoved` invalidation listener -/

/-- The favorites pass of the `chrome.tabs.onRemoved` listener
(`sidepanel.js:1612`): for each favorite of the state as it was when the
event fired, if its `lastBoundTabId === closedTabId` (strict equality),
clear its binding through `updateFavoriteBinding`. -/
def handleTabRemovedFavorites (favs : List Item) (closedTabId : Nat)
    (now : Nat) : List Item :=
  favs.foldl (fun acc f =>
    if f.lastBoundTabId == some closedTabId then
      updateFavoriteBinding acc f.id none now
    else acc) favs

/-- The workspaces pass of the `chrome.tabs.onRemoved` listener: for each
workspace and each of its items (of the state as it was when the event
fired), if `item.lastBoundTabId === closedTabId`, clear its binding through
`updateWorkspaceItemBinding`. -/
def handleTabRemovedWorkspaces (wss : List Workspace) (closedTabId : Nat)
    (now : Nat) : List Workspace :=
  wss.foldl (fun acc w =>
    w.items.foldl (fun acc2 i =>
      if i.lastBoundTabId == some closedTabId then
        updateWorkspaceItemBinding acc2 i.id none now
      else acc2) acc) wss

/-! ## Derived notions used by the statements -/

/-- An item with its binding pair cleared. -/
def clearBinding (i : Item) : Item :=
  { i with lastBoundTabId := none, lastBoundAt := none }

/-- All item ids across all workspaces. -/
def allItemIds (wss : List Workspace) : List Nat :=
  (wss.map (fun w => w.items.map Item.id)).flatten

/-- The (item collection, host) state after `n` successive smart-switch
clicks (no modifier) on the same favorite, whatever each click's outcome. -/
def clickFavoriteStateAfter (fav : Item) (mode : Option String) (pref : String) :
    Nat → List Item × Host → List Item × Host
  | 0, s => s
  | n + 1, s =>
    match clickFavorite s.1 s.2 fav mode pref (some ⟨false⟩) with
    | .done _ favs1 h1 => clickFavoriteStateAfter fav mode pref n (favs1, h1)
    | .errorEscaped favs1 h1 => clickFavoriteStateAfter fav mode pref n (favs1, h1)

/-! # Theorems -/

theorem exceptOkBind {α β : Type} (a : α) (f : α → Except Unit β) :
    (Except.ok a >>= f) = f a := rfl

theorem pure_except {α : Type} (a : α) : (pure a : Except Unit α) = Except.ok a := rfl


theorem patchItem_id (targetId : Nat) (tid at_ : Option Nat) (i : Item) :
    (patchItem targetId tid at_ i).id = i.id := by
  unfold patchItem; split <;> rfl

theorem map_patchItem_of_not_mem (items : List Item) (iid : Nat)
    (tid at_ : Option Nat) (hnone : ∀ i ∈ items, i.id ≠ iid) :
    items.map (patchItem iid tid at_) = items := by
  have h : items.map (patchItem iid tid at_) = items.map id :=
    List.map_congr_left (fun i hi => by simp [patchItem, hnone i hi])
  simpa using h

theorem patchItem_mem_char (fid : Nat) (tid at_ : Option Nat) (l : List Item)
    (f' : Item) (hmem : f' ∈ l.map (patchItem fid tid at_)) (hid : f'.id = fid) :
    f'.lastBoundTabId = tid ∧ f'.lastBoundAt = at_ := by
  rcases List.mem_map.mp hmem with ⟨f, _, rfl⟩
  by_cases h : f.id = fid
  · simp [patchItem, h]
  · rw [patchItem_id] at hid; exact absurd hid h

theorem allItemIds_cons (w : Workspace) (rest : List Workspace) :
    allItemIds (w :: rest) = w.items.map Item.id ++ allItemIds rest := by
  simp [allItemIds]

/-- Under globally unique item ids, the first-containing-workspace walk of
`updateWorkspaceItemBinding` is the same as patching the item everywhere. -/
theorem updateWorkspaceItemBinding_eq_global (wss : List Workspace) (iid : Nat)
    (tid : Option Nat) (now : Nat) (hnd : (allItemIds wss).Nodup) :
    updateWorkspaceItemBinding wss iid tid now
      = wss.map (fun w =>
          { w with items := w.items.map (patchItem iid tid (boundAtOf tid now)) }) := by
  induction wss with
  | nil => rfl
  | cons w rest ih =>
    rw [allItemIds_cons, List.nodup_append] at hnd
    unfold updateWorkspaceItemBinding
    by_cases hc : w.items.any (fun i => i.id == iid)
    · rw [if_pos hc]
      have hiid : iid ∈ w.items.map Item.id := by
        rcases List.any_eq_true.mp hc with ⟨i, hi, hbi⟩
        exact List.mem_map.mpr ⟨i, hi, beq_iff_eq.mp hbi⟩
      have hrest : rest.map (fun w' =>
          { w' with items := w'.items.map (patchItem iid tid (boundAtOf tid now)) })
          = rest.map id := by
        refine List.map_congr_left (fun w' hw' => ?_)
        have hnotin : ∀ i ∈ w'.items, i.id ≠ iid := by
          intro i hi hidq
          have : iid ∈ allItemIds rest := by
            simp only [allItemIds, List.mem_flatten]
            exact ⟨w'.items.map Item.id, List.mem_map.mpr ⟨w', hw', rfl⟩,
              List.mem_map.mpr ⟨i, hi, hidq⟩⟩
          exact hnd.2.2 hiid this
        simp [map_patchItem_of_not_mem w'.items iid _ _ hnotin]
      simp only [List.map_cons, hrest, List.map_id]
      rfl
    · rw [if_neg hc]
      have hnotin : ∀ i ∈ w.items, i.id ≠ iid := by
        intro i hi hidq
        exact hc (List.any_eq_true.mpr ⟨i, hi, by simp [hidq]⟩)
      have hw : ({ w with items := w.items.map (patchItem iid tid (boundAtOf tid now)) }
          : Workspace) = w := by
        rw [map_patchItem_of_not_mem w.items iid _ _ hnotin]
      rw [List.map_cons, hw, ih hnd.2.1]

theorem updateFavoriteBinding_none_eq (favs : List Item) (fid now : Nat) :
    updateFavoriteBinding favs fid none now
      = favs.map (fun x => if x.id == fid then clearBinding x else x) := rfl

/-- Pointwise effect of a conditional clear after a clear-by-id. -/
theorem clear_pointwise (q : Nat → Bool) (fid : Nat) (g : Item) :
    (if q (if g.id == fid then clearBinding g else g).id
     then clearBinding (if g.id == fid then clearBinding g else g)
     else (if g.id == fid then clearBinding g else g))
      = if ((fid == g.id) || q g.id) then clearBinding g else g := by
  by_cases hg : g.id = fid
  · simp [clearBinding, hg]
  · have h1 : (g.id == fid) = false := beq_eq_false_iff_ne.mpr hg
    have h2 : (fid == g.id) = false := beq_eq_false_iff_ne.mpr (Ne.symm hg)
    by_cases hq : q g.id <;> simp [h1, h2, hq]

/-- The favorites pass of the removal listener, folded over an arbitrary
iteration list, is a single conditional map over the accumulator. -/
theorem foldl_clear_eq_map (c now : Nat) (iter : List Item) :
    ∀ acc : List Item,
    iter.foldl (fun a f =>
        if f.lastBoundTabId == some c then updateFavoriteBinding a f.id none now
        else a) acc
      = acc.map (fun g =>
          if iter.any (fun f => (f.lastBoundTabId == some c) && (f.id == g.id))
          then clearBinding g else g) := by
  induction iter with
  | nil => intro acc; simp
  | cons f fs ih =>
    intro acc
    rw [List.foldl_cons]
    by_cases hf : (f.lastBoundTabId == some c) = true
    · rw [if_pos hf, ih, updateFavoriteBinding_none_eq, List.map_map]
      refine List.map_congr_left (fun g _ => ?_)
      have := clear_pointwise
        (fun n => fs.any (fun i => (i.lastBoundTabId == some c) && (i.id == n))) f.id g
      simp only [Function.comp]
      rw [this]
      simp [hf, List.any_cons]
    · rw [if_neg hf, ih]
      refine List.map_congr_left (fun g _ => ?_)
      have hf' : (f.lastBoundTabId == some c) = false := by
        simpa using hf
      simp [List.any_cons, hf']

/-- Ids are untouched by the global patch, so the flattened id list — and
hence its `Nodup`-ness — survives it. -/
theorem allItemIds_map_patch (acc : List Workspace) (iid : Nat)
    (tid at_ : Option Nat) :
    allItemIds (acc.map (fun w => { w with items := w.items.map (patchItem iid tid at_) }))
      = allItemIds acc := by
  unfold allItemIds
  rw [List.map_map]
  congr 1
  refine List.map_congr_left (fun w _ => ?_)
  simp only [Function.comp, List.map_map]
  exact List.map_congr_left (fun i _ => patchItem_id iid tid at_ i)

/-- The workspaces pass of the removal listener, folded over an arbitrary
item iteration list, is a single conditional map — given globally unique
item ids in the accumulator. -/
theorem foldl_clear_ws_eq_map (c now : Nat) (iter : List Item) :
    ∀ acc : List Workspace, (allItemIds acc).Nodup →
    iter.foldl (fun a i =>
        if i.lastBoundTabId == some c then updateWorkspaceItemBinding a i.id none now
        else a) acc
      = acc.map (fun w => { w with items := w.items.map (fun g =>
          if iter.any (fun i => (i.lastBoundTabId == some c) && (i.id == g.id))
          then clearBinding g else g) }) := by
  induction iter with
  | nil => intro acc _; simp
  | cons i is ih =>
    intro acc hnd
    rw [List.foldl_cons]
    by_cases hi : (i.lastBoundTabId == some c) = true
    · rw [if_pos hi, updateWorkspaceItemBinding_eq_global acc i.id none now hnd,
        ih _ (by rw [allItemIds_map_patch]; exact hnd), List.map_map]
      refine List.map_congr_left (fun w _ => ?_)
      simp only [Function.comp, List.map_map]
      refine congrArg (fun l => Workspace.mk l) ?_
      refine List.map_congr_left (fun g _ => ?_)
      have hpt := clear_pointwise
        (fun n => is.any (fun j => (j.lastBoundTabId == some c) && (j.id == n))) i.id g
      exact hpt.trans (by simp [hi, List.any_cons])
    · rw [if_neg hi, ih _ hnd]
      refine List.map_congr_left (fun w _ => ?_)
      refine congrArg (fun l => Workspace.mk l) ?_
      refine List.map_congr_left (fun g _ => ?_)
      have hi' : (i.lastBoundTabId == some c) = false := by simpa using hi
      simp [List.any_cons, hi']

/-- C2: when tab `c` closes, the `chrome.tabs.onRemoved` listener clears
the binding of every favorite and every workspace item (across all
workspaces) whose `lastBoundTabId` equals `c` — and touches nothing else —
so afterwards no item's non-null `lastBoundTabId` refers to the closed tab;
no matching item is skipped.  Item ids are assumed unique, as the data
model prescribes (ids are extension-assigned and never reused). -/
theorem tabRemoved_invalidates_all (favs : List Item) (wss : List Workspace)
    (c now : Nat) (hfav : (favs.map Item.id).Nodup)
    (hws : (allItemIds wss).Nodup) :
    handleTabRemovedFavorites favs c now
      = favs.map (fun g => if g.lastBoundTabId == some c then clearBinding g else g) ∧
    handleTabRemovedWorkspaces wss c now
      = wss.map (fun w => { w with items := w.items.map (fun g =>
          if g.lastBoundTabId == some c then clearBinding g else g) }) ∧
    (∀ f' ∈ handleTabRemovedFavorites favs c now, f'.lastBoundTabId ≠ some c) ∧
    (∀ w' ∈ handleTabRemovedWorkspaces wss c now, ∀ i' ∈ w'.items,
      i'.lastBoundTabId ≠ some c) := by
  have hnotc : ∀ g : Item, (g.lastBoundTabId == some c) = false →
      g.lastBoundTabId ≠ some c := by
    intro g hgf hEq
    rw [hEq] at hgf
    simp at hgf
  have hfchar : handleTabRemovedFavorites favs c now
      = favs.map (fun g => if g.lastBoundTabId == some c then clearBinding g else g) := by
    unfold handleTabRemovedFavorites
    rw [foldl_clear_eq_map c now favs favs]
    refine List.map_congr_left (fun g hg => ?_)
    cases hb : (g.lastBoundTabId == some c) with
    | true =>
      rw [List.any_eq_true.mpr ⟨g, hg, by simp [hb]⟩, if_pos rfl]
    | false =>
      have hany : (favs.any fun f => f.lastBoundTabId == some c && f.id == g.id)
          = false := by
        rw [List.any_eq_false]
        intro f hf hpf
        have hid : f.id = g.id := beq_iff_eq.mp (Bool.and_elim_right hpf)
        have hfg : f = g := List.inj_on_of_nodup_map hfav hf hg hid
        rw [hfg] at hpf
        rw [hb] at hpf
        simp at hpf
      rw [hany]
  have hflat : handleTabRemovedWorkspaces wss c now
      = ((wss.map Workspace.items).flatten).foldl (fun a i =>
          if i.lastBoundTabId == some c then updateWorkspaceItemBinding a i.id none now
          else a) wss := by
    unfold handleTabRemovedWorkspaces
    rw [List.foldl_flatten, List.foldl_map]
  have hidsflat : (((wss.map Workspace.items).flatten).map Item.id).Nodup := by
    have h1 : ((wss.map Workspace.items).flatten).map Item.id = allItemIds wss := by
      rw [List.map_flatten, List.map_map]
      rfl
    rw [h1]; exact hws
  have hwchar : handleTabRemovedWorkspaces wss c now
      = wss.map (fun w => { w with items := w.items.map (fun g =>
          if g.lastBoundTabId == some c then clearBinding g else g) }) := by
    rw [hflat, foldl_clear_ws_eq_map c now _ wss hws]
    refine List.map_congr_left (fun w hw => ?_)
    refine congrArg (fun l => Workspace.mk l) ?_
    refine List.map_congr_left (fun g hg => ?_)
    have hgflat : g ∈ (wss.map Workspace.items).flatten :=
      List.mem_flatten.mpr ⟨w.items, List.mem_map.mpr ⟨w, hw, rfl⟩, hg⟩
    cases hb : (g.lastBoundTabId == some c) with
    | true =>
      rw [List.any_eq_true.mpr ⟨g, hgflat, by simp [hb]⟩, if_pos rfl]
    | false =>
      have hany : (((wss.map Workspace.items).flatten).any fun i =>
          i.lastBoundTabId == some c && i.id == g.id) = false := by
        rw [List.any_eq_false]
        intro f hf hpf
        have hid : f.id = g.id := beq_iff_eq.mp (Bool.and_elim_right hpf)
        have hfg : f = g := List.inj_on_of_nodup_map hidsflat hf hgflat hid
        rw [hfg] at hpf
        rw [hb] at hpf
        simp at hpf
      rw [hany]
  refine ⟨hfchar, hwchar, ?_, ?_⟩
  · rw [hfchar]
    intro f' hmem
    rcases List.mem_map.mp hmem with ⟨g, _, rfl⟩
    cases hb : (g.lastBoundTabId == some c) with
    | true => simp [clearBinding]
    | false => simpa using hnotc g hb
  · rw [hwchar]
    intro w' hmem i' hi'
    rcases List.mem_map.mp hmem with ⟨w, _, rfl⟩
    rcases List.mem_map.mp hi' with ⟨g, _, rfl⟩
    cases hb : (g.lastBoundTabId == some c) with
    | true => simp [clearBinding]
    | false => simpa using hnotc g hb

/-- Witness for C2 at a concrete removal: favorite 1 and workspace item 3
were bound to tab 5, which closes; their bindings are cleared and nothing
else changes. -/
theorem tabRemoved_invalidates_all_witness :
    handleTabRemovedFavorites
        [⟨1, "a", some 5, some 1⟩, ⟨2, "b", some 6, some 2⟩] 5 9
      = [⟨1, "a", none, none⟩, ⟨2, "b", some 6, some 2⟩] ∧
    handleTabRemovedWorkspaces
        [⟨[⟨3, "c", some 5, some 3⟩, ⟨4, "d", none, none⟩]⟩] 5 9
      = [⟨[⟨3, "c", none, none⟩, ⟨4, "d", none, none⟩]⟩] := by
  have h := tabRemoved_invalidates_all
    [⟨1, "a", some 5, some 1⟩, ⟨2, "b", some 6, some 2⟩]
    [⟨[⟨3, "c", some 5, some 3⟩, ⟨4, "d", none, none⟩]⟩] 5 9
    (by decide) (by decide)
  exact ⟨h.1.trans (by decide), h.2.1.trans (by decide)⟩

/-- C5: `matchesUrl tabUrl targetUrl` returns `true` exactly when both
arguments parse as URLs (in the `parseHostname` model of the host URL
constructor) and their lowercased hostnames are equal, ignoring path, query
and fragment; the Gmail pair and the two-GitHub-repos pair match, hosts on
different subdomains do not, and any side failing to parse gives `false`
(the handler's `catch` — the Lean embedding is total, so no exception can
escape). -/
theorem matchesUrl_domain_equality :
    (∀ a b : String, matchesUrl a b = true ↔
      ∃ ha hb, parseHostname a = some ha ∧ parseHostname b = some hb ∧ ha = hb) ∧
    matchesUrl "https://mail.google.com/mail/u/0/#inbox"
      "https://mail.google.com/mail/" = true ∧
    matchesUrl "https://github.com/org/repoA" "https://github.com/org/repoB" = true ∧
    matchesUrl "https://a.example.com/x" "https://b.example.com/x" = false ∧
    (∀ a b : String, parseHostname a = none ∨ parseHostname b = none →
      matchesUrl a b = false) := by
  refine ⟨?_, by decide, by decide, by decide, ?_⟩
  · intro a b
    cases e1 : parseHostname a <;> cases e2 : parseHostname b <;>
      simp [matchesUrl, e1, e2]
  · intro a b hmal
    rcases hmal with hmal | hmal <;>
      cases e1 : parseHostname a <;> cases e2 : parseHostname b <;>
        simp_all [matchesUrl]

/-- Witness for C5 at a concrete malformed input. -/
theorem matchesUrl_domain_equality_witness :
    matchesUrl "nota url" "https://a.com/" = false :=
  matchesUrl_domain_equality.2.2.2.2 "nota url" "https://a.com/" (Or.inl (by decide))

/-- C8 counterexample: `updateFavoriteBinding` called with the non-null tab
id `0` stores `lastBoundTabId = some 0` but a **null** `lastBoundAt` — the
source computes `lastBoundAt` as `tabId ? Date.now() : null`, and the JS
number `0` is falsy, so the claim's "non-null tabId stores ... a non-null
lastBoundAt timestamp" fails at `tabId = 0`. -/
theorem setBinding_nonnull_timestamp_counterexample :
    updateFavoriteBinding [⟨1, "u", some 5, some 10⟩] 1 (some 0) 99
      = [⟨1, "u", some 0, none⟩] ∧ (some 0 : Option Nat) ≠ none := by
  exact ⟨by decide, by decide⟩

/-- C8 (amended): setting a binding to null clears both fields
(`lastBoundTabId = null` and `lastBoundAt = null`); setting it to a
non-null **and nonzero** tabId stores that tabId together with a non-null
timestamp; the non-null tabId `0` is stored with a null `lastBoundAt`
because the source's `tabId ? Date.now() : null` treats `0` as falsy.
Stated for both setters (`updateFavoriteBinding` and, under globally unique
item ids, `updateWorkspaceItemBinding`). -/
theorem setBinding_clears_and_stores :
    (∀ (favs : List Item) (fid now : Nat) (f' : Item),
      f' ∈ updateFavoriteBinding favs fid none now → f'.id = fid →
        f'.lastBoundTabId = none ∧ f'.lastBoundAt = none) ∧
    (∀ (favs : List Item) (fid now t : Nat), t ≠ 0 → ∀ f' : Item,
      f' ∈ updateFavoriteBinding favs fid (some t) now → f'.id = fid →
        f'.lastBoundTabId = some t ∧ f'.lastBoundAt = some now) ∧
    (∀ (favs : List Item) (fid now : Nat) (f' : Item),
      f' ∈ updateFavoriteBinding favs fid (some 0) now → f'.id = fid →
        f'.lastBoundTabId = some 0 ∧ f'.lastBoundAt = none) ∧
    (∀ (wss : List Workspace) (iid now : Nat), (allItemIds wss).Nodup →
      ∀ w' ∈ updateWorkspaceItemBinding wss iid none now, ∀ i' ∈ w'.items,
        i'.id = iid → i'.lastBoundTabId = none ∧ i'.lastBoundAt = none) ∧
    (∀ (wss : List Workspace) (iid now t : Nat), t ≠ 0 → (allItemIds wss).Nodup →
      ∀ w' ∈ updateWorkspaceItemBinding wss iid (some t) now, ∀ i' ∈ w'.items,
        i'.id = iid → i'.lastBoundTabId = some t ∧ i'.lastBoundAt = some now) := by
  have hws : ∀ (wss : List Workspace) (iid now : Nat) (tid : Option Nat),
      (allItemIds wss).Nodup →
      ∀ w' ∈ updateWorkspaceItemBinding wss iid tid now, ∀ i' ∈ w'.items,
        i'.id = iid →
          i'.lastBoundTabId = tid ∧ i'.lastBoundAt = boundAtOf tid now := by
    intro wss iid now tid hnd w' hw' i' hi' hid
    rw [updateWorkspaceItemBinding_eq_global wss iid tid now hnd] at hw'
    rcases List.mem_map.mp hw' with ⟨w, _, rfl⟩
    exact patchItem_mem_char iid tid (boundAtOf tid now) w.items i' hi' hid
  refine ⟨?_, ?_, ?_, ?_, ?_⟩
  · intro favs fid now f' hmem hid
    exact patchItem_mem_char fid none none favs f' hmem hid
  · intro favs fid now t ht f' hmem hid
    have := patchItem_mem_char fid (some t) (boundAtOf (some t) now) favs f' hmem hid
    simpa [boundAtOf, truthyId, ht] using this
  · intro favs fid now f' hmem hid
    exact patchItem_mem_char fid (some 0) none favs f' hmem hid
  · intro wss iid now hnd w' hw' i' hi' hid
    exact hws wss iid now none hnd w' hw' i' hi' hid
  · intro wss iid now t ht hnd w' hw' i' hi' hid
    have := hws wss iid now (some t) hnd w' hw' i' hi' hid
    simpa [boundAtOf, truthyId, ht] using this

/-- Witness for C8 (amended) at concrete inputs: clearing and nonzero
storing on a one-favorite list. -/
theorem setBinding_clears_and_stores_witness :
    (⟨1, "u", none, none⟩ : Item).lastBoundTabId = none ∧
    (⟨1, "u", some 7, some 99⟩ : Item).lastBoundTabId = some 7 := by
  have h1 := setBinding_clears_and_stores.1 [⟨1, "u", some 5, some 10⟩] 1 99
    ⟨1, "u", none, none⟩ (by decide) rfl
  have h2 := setBinding_clears_and_stores.2.1 [⟨1, "u", some 5, some 10⟩] 1 99 7
    (by decide) ⟨1, "u", some 7, some 99⟩ (by decide) rfl
  exact ⟨h1.1, by rw [h2.1]⟩

/-- C10: the URL matcher is symmetric — `matchesUrl a b = matchesUrl b a`
for all strings, since it compares the two parsed hostnames for equality
and fails closed whenever either side fails to parse. -/
theorem matchesUrl_symm : ∀ a b : String, matchesUrl a b = matchesUrl b a := by
  intro a b
  cases e1 : parseHostname a <;> cases e2 : parseHostname b <;>
    simp [matchesUrl, e1, e2]
  exact eq_comm

/-! ## Switcher helper lemmas -/

theorem tabsGet_id (h : Host) (b : Nat) (tb : Tab) (hget : tabsGet h b = some tb) :
    tb.id = b := by
  unfold tabsGet at hget
  have h1 := List.find?_some hget
  exact beq_iff_eq.mp h1

theorem tabsActivate_ok (h : Host) (tid : Nat) (tb : Tab)
    (hfu : tid ∉ h.failUpdate) (hget : tabsGet h tid = some tb) :
    tabsActivate h tid = .ok (applyActivate h tid tb.windowId) := by
  unfold tabsActivate
  rw [if_neg hfu, hget]

theorem tabsGet_applyActivate (h : Host) (tid wid b : Nat) :
    tabsGet (applyActivate h tid wid) b = (tabsGet h b).map (fun t =>
      if t.id == tid then { t with active := true }
      else if t.windowId == wid then { t with active := false } else t) := by
  unfold tabsGet applyActivate
  rw [List.find?_map]
  have hp : ((fun t : Tab => t.id == b) ∘ (fun t : Tab =>
      if t.id == tid then { t with active := true }
      else if t.windowId == wid then { t with active := false } else t))
      = (fun t : Tab => t.id == b) := by
    funext t
    by_cases h1 : (t.id == tid) = true <;> by_cases h2 : (t.windowId == wid) = true <;>
      simp [Function.comp, h1, h2]
  rw [hp]

theorem tabsGet_isSome_of_mem (h : Host) (t : Tab) (hmem : t ∈ h.tabs) :
    (tabsGet h t.id).isSome = true :=
  List.find?_isSome.mpr ⟨t, hmem, by simp⟩

theorem mem_tabs_of_mem_query (h : Host) (t : Tab) (hmem : t ∈ tabsQuery h) :
    t ∈ h.tabs :=
  (List.filter_sublist h.tabs).mem hmem

theorem tabsGet_applyCreate_isSome (h : Host) (url : String) :
    (tabsGet (applyCreate h url) h.nextTabId).isSome = true := by
  refine List.find?_isSome.mpr ⟨newTabOf h url, ?_, by simp [newTabOf]⟩
  unfold applyCreate
  simp

/-- A smart-switch click on a favorite whose bound tab is alive: the tab is
focused, the binding is untouched, and the action is `focused-bound`. -/
theorem clickFavorite_bound_char (favs : List Item) (h : Host) (fav : Item)
    (mode : Option String) (pref : String) (ev : ClickEvent)
    (hev : ev.shiftKey = false) (hmode : openModeOf mode pref = "smart-switch")
    (b : Nat) (tb : Tab) (hb : fav.lastBoundTabId = some b) (hb0 : b ≠ 0)
    (hget : tabsGet h b = some tb) (hfu : b ∉ h.failUpdate)
    (hfw : tb.windowId ∉ h.failWindowUpdate) :
    clickFavorite favs h fav mode pref (some ev)
      = .done .focusedBound favs (applyActivate h b tb.windowId) := by
  have hid : tb.id = b := tabsGet_id h b tb hget
  have hact : tabsActivate h tb.id = Except.ok (applyActivate h b tb.windowId) := by
    rw [hid]; exact tabsActivate_ok h b tb hfu hget
  have htry : smartSwitchFavoriteTry favs h fav
      = .ok (.focusedBound, favs, applyActivate h b tb.windowId) := by
    unfold smartSwitchFavoriteTry
    simp only [hb]
    rw [if_pos hb0]
    simp only [hget]
    rw [hact]
    simp only [exceptOkBind]
    by_cases hw : tb.windowId = 0
    · rw [if_neg (by rw [hw]; exact fun hc => hc rfl)]
      rfl
    · rw [if_pos hw]
      unfold windowsFocus
      rw [if_neg (by simpa [applyActivate] using hfw)]
      rfl
  unfold clickFavorite
  simp [hmode, hev, htry]

/-- C4: for a favorite whose bound tab is open (and truthy, and the host
accepts focus calls), every smart-switch click returns `focused-bound`,
leaves the item collection — hence both `lastBoundTabId` and `lastBoundAt`
of every item — unchanged, and leaves the bound tab focused; this holds
after any number `n` of preceding clicks (idempotent refocus). -/
theorem repeated_click_focuses_bound (favs : List Item) (h : Host) (fav : Item)
    (mode : Option String) (pref : String) (b : Nat) (tb : Tab)
    (hmode : openModeOf mode pref = "smart-switch")
    (hb : fav.lastBoundTabId = some b) (hb0 : b ≠ 0)
    (hget : tabsGet h b = some tb) (hfu : h.failUpdate = [])
    (hfw : h.failWindowUpdate = []) :
    ∀ n : Nat,
      (clickFavoriteStateAfter fav mode pref n (favs, h)).1 = favs ∧
      ∃ h'' : Host,
        clickFavorite (clickFavoriteStateAfter fav mode pref n (favs, h)).1
            (clickFavoriteStateAfter fav mode pref n (favs, h)).2 fav mode pref
            (some ⟨false⟩)
          = .done .focusedBound favs h'' ∧
        ∃ tb' : Tab, tabsGet h'' b = some tb' ∧ tb'.active = true := by
  have main : ∀ (n : Nat) (h0 : Host), (∃ tb0, tabsGet h0 b = some tb0) →
      h0.failUpdate = [] → h0.failWindowUpdate = [] →
      (clickFavoriteStateAfter fav mode pref n (favs, h0)).1 = favs ∧
      ∃ h'' : Host,
        clickFavorite (clickFavoriteStateAfter fav mode pref n (favs, h0)).1
            (clickFavoriteStateAfter fav mode pref n (favs, h0)).2 fav mode pref
            (some ⟨false⟩)
          = .done .focusedBound favs h'' ∧
        ∃ tb' : Tab, tabsGet h'' b = some tb' ∧ tb'.active = true := by
    intro n
    induction n with
    | zero =>
      intro h0 hex hfu0 hfw0
      rcases hex with ⟨tb0, hget0⟩
      have hid0 : tb0.id = b := tabsGet_id h0 b tb0 hget0
      have hchar := clickFavorite_bound_char favs h0 fav mode pref ⟨false⟩ rfl hmode
        b tb0 hb hb0 hget0 (by rw [hfu0]; exact List.not_mem_nil b)
        (by rw [hfw0]; exact List.not_mem_nil tb0.windowId)
      refine ⟨rfl, applyActivate h0 b tb0.windowId, hchar, ?_⟩
      refine ⟨{ tb0 with active := true }, ?_, rfl⟩
      rw [tabsGet_applyActivate, hget0]
      simp [hid0]
    | succ n ih =>
      intro h0 hex hfu0 hfw0
      rcases hex with ⟨tb0, hget0⟩
      have hid0 : tb0.id = b := tabsGet_id h0 b tb0 hget0
      have hchar := clickFavorite_bound_char favs h0 fav mode pref ⟨false⟩ rfl hmode
        b tb0 hb hb0 hget0 (by rw [hfu0]; exact List.not_mem_nil b)
        (by rw [hfw0]; exact List.not_mem_nil tb0.windowId)
      have hstep : clickFavoriteStateAfter fav mode pref (n + 1) (favs, h0)
          = clickFavoriteStateAfter fav mode pref n
              (favs, applyActivate h0 b tb0.windowId) := by
        conv_lhs => rw [clickFavoriteStateAfter]
        rw [hchar]
      rw [hstep]
      refine ih (applyActivate h0 b tb0.windowId) ?_ hfu0 hfw0
      refine ⟨{ tb0 with active := true }, ?_⟩
      rw [tabsGet_applyActivate, hget0]
      simp [hid0]
  exact fun n => main n h ⟨tb, hget⟩ hfu hfw

/-- Witness for C4: three repeated clicks on a concretely bound favorite
leave the favorites list unchanged. -/
theorem repeated_click_focuses_bound_witness :
    (clickFavoriteStateAfter ⟨1, "u", some 5, some 100⟩ none "smart-switch" 3
        ([⟨1, "u", some 5, some 100⟩],
          ⟨[⟨5, "x", 1, false⟩], 10, 1, 99, [], [], false⟩)).1
      = [⟨1, "u", some 5, some 100⟩] := by
  have h := repeated_click_focuses_bound [⟨1, "u", some 5, some 100⟩]
    ⟨[⟨5, "x", 1, false⟩], 10, 1, 99, [], [], false⟩ ⟨1, "u", some 5, some 100⟩
    none "smart-switch" 5 ⟨5, "x", 1, false⟩ rfl rfl (by decide) (by decide) rfl rfl
  exact (h 3).1

theorem updateFavoriteBinding_overwrite (favs : List Item) (fid : Nat)
    (t1 : Option Nat) (n1 : Nat) (t2 : Option Nat) (n2 : Nat) :
    updateFavoriteBinding (updateFavoriteBinding favs fid t1 n1) fid t2 n2
      = updateFavoriteBinding favs fid t2 n2 := by
  unfold updateFavoriteBinding storageUpdateFavorite
  rw [List.map_map]
  refine List.map_congr_left (fun f _ => ?_)
  by_cases hf : (f.id == fid) = true <;> simp [Function.comp, patchItem, hf]

/-- The fallback search when the scan finds a matching tab and the focus
call is accepted: focus it and bind to it. -/
theorem fallbackSearchFavorite_found (favs : List Item) (h : Host) (fav : Item)
    (mt : Tab) (hfind : (tabsQuery h).find? (fallbackPred fav.url) = some mt)
    (hfu : mt.id ∉ h.failUpdate) :
    ∃ tb, tabsGet h mt.id = some tb ∧
      fallbackSearchFavorite favs h fav
        = .ok (.focusedFound, updateFavoriteBinding favs fav.id (some mt.id) h.now,
            applyActivate h mt.id tb.windowId) := by
  have hmem : mt ∈ h.tabs := mem_tabs_of_mem_query h mt (List.mem_of_find?_eq_some hfind)
  have hsome : (tabsGet h mt.id).isSome := tabsGet_isSome_of_mem h mt hmem
  rcases Option.isSome_iff_exists.mp hsome with ⟨tb, hget⟩
  refine ⟨tb, hget, ?_⟩
  unfold fallbackSearchFavorite
  simp only [hfind]
  rw [tabsActivate_ok h mt.id tb hfu hget]
  simp only [exceptOkBind]
  rfl

/-- The fallback search when no open tab matches and creation is accepted:
create a tab at the item's url and bind to it. -/
theorem fallbackSearchFavorite_none (favs : List Item) (h : Host) (fav : Item)
    (hfind : (tabsQuery h).find? (fallbackPred fav.url) = none)
    (hfc : h.failCreate = false) :
    fallbackSearchFavorite favs h fav
      = .ok (.createdNew, updateFavoriteBinding favs fav.id (some h.nextTabId) h.now,
          applyCreate h fav.url) := by
  unfold fallbackSearchFavorite
  simp only [hfind]
  unfold tabsCreate
  rw [if_neg (by simp [hfc])]
  simp only [exceptOkBind]
  rfl

/-- When the item has no valid binding (null, the falsy id 0, or a dead tab
id), the `try` body reaches the fallback search — after clearing the stale
binding in the dead-tab case. -/
theorem smartSwitchFavoriteTry_invalid (favs : List Item) (h : Host) (fav : Item)
    (hinv : fav.lastBoundTabId = none ∨ fav.lastBoundTabId = some 0 ∨
      ∃ bd, fav.lastBoundTabId = some bd ∧ tabsGet h bd = none) :
    ∃ favs1, (favs1 = favs ∨ favs1 = updateFavoriteBinding favs fav.id none h.now) ∧
      smartSwitchFavoriteTry favs h fav = fallbackSearchFavorite favs1 h fav := by
  rcases hinv with hnone | hzero | ⟨bd, hbd, hdead⟩
  · exact ⟨favs, Or.inl rfl, by unfold smartSwitchFavoriteTry; simp only [hnone]⟩
  · refine ⟨favs, Or.inl rfl, ?_⟩
    unfold smartSwitchFavoriteTry
    simp only [hzero]
    rw [if_neg (by simp)]
  · by_cases hbz : bd = 0
    · refine ⟨favs, Or.inl rfl, ?_⟩
      unfold smartSwitchFavoriteTry
      simp only [hbd, hbz]
      rw [if_neg (by simp)]
    · refine ⟨updateFavoriteBinding favs fav.id none h.now, Or.inr rfl, ?_⟩
      unfold smartSwitchFavoriteTry
      simp only [hbd]
      rw [if_pos hbz]
      simp only [hdead]

/-- A non-force smart-switch click is the `try` body with the `catch`
degrading to `openUrl(url, 'new-tab')`. -/
theorem clickFavorite_eq_try (favs : List Item) (h : Host) (fav : Item)
    (mode : Option String) (pref : String) (ev : ClickEvent)
    (hev : ev.shiftKey = false) (hmode : openModeOf mode pref = "smart-switch") :
    clickFavorite favs h fav mode pref (some ev)
      = match smartSwitchFavoriteTry favs h fav with
        | .ok (a, favs1, h1) => .done a favs1 h1
        | .error _ => .done .fallbackOpen favs (openUrl h fav.url "new-tab") := by
  unfold clickFavorite
  simp [hmode, hev]

/-- With no valid binding, a smart-switch click runs the fallback URL
search over the open tabs of the current window: the first tab (in
iteration order) whose URL domain-matches the item's url is focused and
bound; if none matches, a new tab is created at the item's url and bound. -/
theorem clickFavorite_invalid_char (favs : List Item) (h : Host) (fav : Item)
    (mode : Option String) (pref : String) (ev : ClickEvent)
    (hev : ev.shiftKey = false) (hmode : openModeOf mode pref = "smart-switch")
    (hinv : fav.lastBoundTabId = none ∨ fav.lastBoundTabId = some 0 ∨
      ∃ bd, fav.lastBoundTabId = some bd ∧ tabsGet h bd = none)
    (hfu : h.failUpdate = []) (hfc : h.failCreate = false) :
    (∀ mt, (tabsQuery h).find? (fallbackPred fav.url) = some mt →
      ∃ tb, tabsGet h mt.id = some tb ∧
        clickFavorite favs h fav mode pref (some ev)
          = .done .focusedFound
              (updateFavoriteBinding favs fav.id (some mt.id) h.now)
              (applyActivate h mt.id tb.windowId)) ∧
    ((tabsQuery h).find? (fallbackPred fav.url) = none →
      clickFavorite favs h fav mode pref (some ev)
        = .done .createdNew
            (updateFavoriteBinding favs fav.id (some h.nextTabId) h.now)
            (applyCreate h fav.url)) := by
  rcases smartSwitchFavoriteTry_invalid favs h fav hinv with ⟨favs1, hfavs1, htry⟩
  have hc := clickFavorite_eq_try favs h fav mode pref ev hev hmode
  rw [htry] at hc
  constructor
  · intro mt hfind
    rcases fallbackSearchFavorite_found favs1 h fav mt hfind
      (by rw [hfu]; exact List.not_mem_nil mt.id) with ⟨tb, hget, hfb⟩
    rw [hfb] at hc
    refine ⟨tb, hget, ?_⟩
    rcases hfavs1 with rfl | rfl
    · exact hc
    · refine hc.trans ?_
      show Outcome.done SwitchAction.focusedFound
        (updateFavoriteBinding (updateFavoriteBinding favs fav.id none h.now)
          fav.id (some mt.id) h.now) (applyActivate h mt.id tb.windowId) = _
      rw [updateFavoriteBinding_overwrite]
  · intro hfind
    rw [fallbackSearchFavorite_none favs1 h fav hfind hfc] at hc
    rcases hfavs1 with rfl | rfl
    · exact hc
    · refine hc.trans ?_
      show Outcome.done SwitchAction.createdNew
        (updateFavoriteBinding (updateFavoriteBinding favs fav.id none h.now)
          fav.id (some h.nextTabId) h.now) (applyCreate h fav.url) = _
      rw [updateFavoriteBinding_overwrite]

/-- C7 counterexample: the favorite's domain is open in tab 6 — but tab 6
lives in window 2 while the panel's window is 1, and the source's fallback
scan is `chrome.tabs.query({ currentWindow: true })`; so although an open
tab domain-matches (second conjunct), the click creates a new tab 10 and
binds to it instead of focusing tab 6 — refuting "scans any open tab". -/
theorem fallback_other_window_counterexample :
    clickFavorite [⟨1, "https://a.com/s", none, none⟩]
        ⟨[⟨6, "https://a.com/x", 2, true⟩], 10, 1, 99, [], [], false⟩
        ⟨1, "https://a.com/s", none, none⟩ none "smart-switch" (some ⟨false⟩)
      = .done .createdNew [⟨1, "https://a.com/s", some 10, some 99⟩]
          (applyCreate ⟨[⟨6, "https://a.com/x", 2, true⟩], 10, 1, 99, [], [], false⟩
            "https://a.com/s") ∧
    matchesUrl "https://a.com/x" "https://a.com/s" = true := by
  exact ⟨by decide, by decide⟩

/-- C7 (amended): with no valid binding, the fallback search scans the open
tabs of the **current window** (the source queries
`{ currentWindow: true }`), focuses and binds the first domain match in
iteration order, and — when no current-window tab matches — creates a new
tab at the item's url and binds the item to it. -/
theorem fallback_search_behavior (favs : List Item) (h : Host) (fav : Item)
    (mode : Option String) (pref : String) (ev : ClickEvent)
    (hev : ev.shiftKey = false) (hmode : openModeOf mode pref = "smart-switch")
    (hinv : fav.lastBoundTabId = none ∨ fav.lastBoundTabId = some 0 ∨
      ∃ bd, fav.lastBoundTabId = some bd ∧ tabsGet h bd = none)
    (hfu : h.failUpdate = []) (hfc : h.failCreate = false) :
    (∀ mt, (tabsQuery h).find? (fallbackPred fav.url) = some mt →
      ∃ tb, tabsGet h mt.id = some tb ∧
        clickFavorite favs h fav mode pref (some ev)
          = .done .focusedFound
              (updateFavoriteBinding favs fav.id (some mt.id) h.now)
              (applyActivate h mt.id tb.windowId)) ∧
    ((tabsQuery h).find? (fallbackPred fav.url) = none →
      clickFavorite favs h fav mode pref (some ev)
        = .done .createdNew
            (updateFavoriteBinding favs fav.id (some h.nextTabId) h.now)
            (applyCreate h fav.url)) :=
  clickFavorite_invalid_char favs h fav mode pref ev hev hmode hinv hfu hfc

/-- Witness for C7 (amended): an unbound favorite whose domain is already
open in tab 6 of the current window gets focused-and-bound to tab 6. -/
theorem fallback_search_behavior_witness :
    clickFavorite [⟨1, "https://a.com/x", none, none⟩]
        ⟨[⟨6, "https://a.com/y", 1, false⟩], 10, 1, 99, [], [], false⟩
        ⟨1, "https://a.com/x", none, none⟩ none "smart-switch" (some ⟨false⟩)
      = .done .focusedFound [⟨1, "https://a.com/x", some 6, some 99⟩]
          (applyActivate ⟨[⟨6, "https://a.com/y", 1, false⟩], 10, 1, 99, [], [], false⟩ 6 1) := by
  have h := (fallback_search_behavior [⟨1, "https://a.com/x", none, none⟩]
    ⟨[⟨6, "https://a.com/y", 1, false⟩], 10, 1, 99, [], [], false⟩
    ⟨1, "https://a.com/x", none, none⟩ none "smart-switch" ⟨false⟩
    rfl rfl (Or.inl rfl) rfl rfl).1 ⟨6, "https://a.com/y", 1, false⟩ (by decide)
  rcases h with ⟨tb, hget, hclick⟩
  have htb : tb = ⟨6, "https://a.com/y", 1, false⟩ := by
    have : some tb = some (⟨6, "https://a.com/y", 1, false⟩ : Tab) := by
      rw [← hget]; decide
    exact (Option.some_inj.mp this)
  rw [htb] at hclick
  exact hclick.trans (by decide)

/-- C1: for an item bound to a tab that has been removed (whether or not
the removal listener already cleared the binding), a smart-switch click
completes without error, never yields `focused-bound` — it yields
`created-new` or `focused-found` — and rebinds the item to a live tab. -/
theorem closed_tab_recovery (favs : List Item) (h : Host) (fav : Item)
    (mode : Option String) (pref : String) (ev : ClickEvent)
    (hev : ev.shiftKey = false) (hmode : openModeOf mode pref = "smart-switch")
    (hdead : fav.lastBoundTabId = none ∨
      ∃ T, fav.lastBoundTabId = some T ∧ tabsGet h T = none)
    (hfu : h.failUpdate = []) (hfc : h.failCreate = false) :
    ∃ a favs' h', clickFavorite favs h fav mode pref (some ev) = .done a favs' h' ∧
      (a = .createdNew ∨ a = .focusedFound) ∧ a ≠ .focusedBound ∧
      ∀ f' ∈ favs', f'.id = fav.id →
        ∃ t, f'.lastBoundTabId = some t ∧ (tabsGet h' t).isSome = true := by
  have hinv : fav.lastBoundTabId = none ∨ fav.lastBoundTabId = some 0 ∨
      ∃ bd, fav.lastBoundTabId = some bd ∧ tabsGet h bd = none := by
    rcases hdead with hnone | ⟨T, hT, hTd⟩
    · exact Or.inl hnone
    · exact Or.inr (Or.inr ⟨T, hT, hTd⟩)
  have hfsb := clickFavorite_invalid_char favs h fav mode pref ev hev hmode hinv hfu hfc
  cases hfind : (tabsQuery h).find? (fallbackPred fav.url) with
  | some mt =>
    rcases hfsb.1 mt hfind with ⟨tb, hget, hclick⟩
    refine ⟨.focusedFound, _, _, hclick, Or.inr rfl, by simp, ?_⟩
    intro f' hmem hid
    have hchar := patchItem_mem_char fav.id (some mt.id)
      (boundAtOf (some mt.id) h.now) favs f' hmem hid
    refine ⟨mt.id, hchar.1, ?_⟩
    rw [tabsGet_applyActivate, hget]
    rfl
  | none =>
    have hclick := hfsb.2 hfind
    refine ⟨.createdNew, _, _, hclick, Or.inl rfl, by simp, ?_⟩
    intro f' hmem hid
    have hchar := patchItem_mem_char fav.id (some h.nextTabId)
      (boundAtOf (some h.nextTabId) h.now) favs f' hmem hid
    exact ⟨h.nextTabId, hchar.1, tabsGet_applyCreate_isSome h fav.url⟩

/-- Witness for C1: favorite bound to the dead tab 5 while its domain is
not open anywhere — the click creates tab 10 and rebinds to it. -/
theorem closed_tab_recovery_witness :
    ∃ a favs' h',
      clickFavorite [⟨1, "https://a.com/x", some 5, some 3⟩]
          ⟨[⟨6, "https://b.com/y", 1, true⟩], 10, 1, 99, [], [], false⟩
          ⟨1, "https://a.com/x", some 5, some 3⟩ none "smart-switch" (some ⟨false⟩)
        = .done a favs' h' ∧
      (a = .createdNew ∨ a = .focusedFound) ∧ a ≠ .focusedBound ∧
      ∀ f' ∈ favs', f'.id = 1 →
        ∃ t, f'.lastBoundTabId = some t ∧ (tabsGet h' t).isSome = true := by
  exact closed_tab_recovery [⟨1, "https://a.com/x", some 5, some 3⟩]
    ⟨[⟨6, "https://b.com/y", 1, true⟩], 10, 1, 99, [], [], false⟩
    ⟨1, "https://a.com/x", some 5, some 3⟩ none "smart-switch" ⟨false⟩
    rfl rfl (Or.inr ⟨5, rfl, by decide⟩) rfl rfl

/-- C3: a force-new (Shift) smart-switch click creates a tab at the item's
url and binds the item to the fresh id `h.nextTabId` — the result depends
only on the item's id/url, never on its current binding or on the open
tabs — and, since every previously issued tab id is below `nextTabId`, the
new bound id always differs from the binding immediately prior.  Stated for
both the favorites and the workspace-item handler. -/
theorem force_new_diverges (favs : List Item) (wss : List Workspace) (h : Host)
    (fav item : Item) (mode : Option String) (pref : String) (ev : ClickEvent)
    (hev : ev.shiftKey = true) (hmode : openModeOf mode pref = "smart-switch")
    (hfc : h.failCreate = false)
    (hfresh : ∀ x, fav.lastBoundTabId = some x → x < h.nextTabId)
    (hfreshw : ∀ x, item.lastBoundTabId = some x → x < h.nextTabId) :
    (clickFavorite favs h fav mode pref (some ev)
        = .done .createdForced
            (updateFavoriteBinding favs fav.id (some h.nextTabId) h.now)
            (applyCreate h fav.url) ∧
      fav.lastBoundTabId ≠ some h.nextTabId) ∧
    (openWorkspaceItem wss h item mode pref (some ev)
        = .done .createdForced
            (updateWorkspaceItemBinding wss item.id (some h.nextTabId) h.now)
            (applyCreate h item.url) ∧
      item.lastBoundTabId ≠ some h.nextTabId) := by
  have hcr : ∀ url, tabsCreate h url = .ok (newTabOf h url, applyCreate h url) := by
    intro url
    unfold tabsCreate
    rw [if_neg (by simp [hfc])]
  refine ⟨⟨?_, ?_⟩, ⟨?_, ?_⟩⟩
  · unfold clickFavorite
    simp [hmode, hev, hcr]
    rfl
  · intro heq
    exact absurd (hfresh h.nextTabId heq) (lt_irrefl h.nextTabId)
  · unfold openWorkspaceItem
    simp [hmode, hev, hcr]
    rfl
  · intro heq
    exact absurd (hfreshw h.nextTabId heq) (lt_irrefl h.nextTabId)

/-- Witness for C3: shift-clicking a favorite bound to tab 5 creates tab 10
and rebinds to it (and likewise for a workspace item). -/
theorem force_new_diverges_witness :
    clickFavorite [⟨1, "u", some 5, some 3⟩]
        ⟨[⟨5, "x", 1, true⟩], 10, 1, 99, [], [], false⟩
        ⟨1, "u", some 5, some 3⟩ none "smart-switch" (some ⟨true⟩)
      = .done .createdForced [⟨1, "u", some 10, some 99⟩]
          (applyCreate ⟨[⟨5, "x", 1, true⟩], 10, 1, 99, [], [], false⟩ "u") ∧
    (⟨1, "u", some 5, some 3⟩ : Item).lastBoundTabId ≠ some 10 := by
  have h := (force_new_diverges [⟨1, "u", some 5, some 3⟩] []
    ⟨[⟨5, "x", 1, true⟩], 10, 1, 99, [], [], false⟩
    ⟨1, "u", some 5, some 3⟩ ⟨2, "v", none, none⟩ none "smart-switch" ⟨true⟩
    rfl rfl rfl (by intro x hx; cases hx; decide)
    (by intro x hx; cases hx)).1
  exact ⟨h.1.trans (by decide), h.2⟩

/-- The workspace-item analogue of `clickFavorite_eq_try`. -/
theorem openWorkspaceItem_eq_try (wss : List Workspace) (h : Host) (item : Item)
    (mode : Option String) (pref : String) (ev : ClickEvent)
    (hev : ev.shiftKey = false) (hmode : openModeOf mode pref = "smart-switch") :
    openWorkspaceItem wss h item mode pref (some ev)
      = match smartSwitchWorkspaceTry wss h item with
        | .ok (a, wss1, h1) => .done a wss1 h1
        | .error _ => .done .fallbackOpen wss (openUrl h item.url "new-tab") := by
  unfold openWorkspaceItem
  simp [hmode, hev]

/-- C6 counterexample, two concrete runs: (1) a Shift+Click whose
`chrome.tabs.create` rejects escapes the handler (the force path sits
outside the `try`), contradicting "never raises past its boundary"; (2) a
click whose focus call on the live bound tab 5 rejects is caught, but the
`catch` runs `openUrl(url, 'new-tab')` without rebinding: the item stays
bound to tab 5, not to the fallback tab 10, contradicting "then attempts to
bind the item to it". -/
theorem switch_error_handling_counterexample :
    clickFavorite [⟨1, "u", some 5, some 3⟩]
        ⟨[⟨5, "x", 1, true⟩], 10, 1, 99, [], [], true⟩
        ⟨1, "u", some 5, some 3⟩ none "smart-switch" (some ⟨true⟩)
      = .errorEscaped [⟨1, "u", some 5, some 3⟩]
          ⟨[⟨5, "x", 1, true⟩], 10, 1, 99, [], [], true⟩ ∧
    clickFavorite [⟨1, "u", some 5, some 3⟩]
        ⟨[⟨5, "x", 1, true⟩], 10, 1, 99, [5], [], false⟩
        ⟨1, "u", some 5, some 3⟩ none "smart-switch" (some ⟨false⟩)
      = .done .fallbackOpen [⟨1, "u", some 5, some 3⟩]
          (applyCreate ⟨[⟨5, "x", 1, true⟩], 10, 1, 99, [5], [], false⟩ "u") ∧
    (⟨1, "u", some 5, some 3⟩ : Item).lastBoundTabId ≠ some 10 := by
  exact ⟨by decide, by decide, by decide⟩

/-- C6 (amended): a host-API failure during the binding-check or fallback
phase of a smart-switch click (the non-force path) is caught inside the
handler and never raises to the UI layer — the handler degrades to firing
`openUrl(url, 'new-tab')` without rebinding — so every non-Shift click on
either handler resolves to a defined `.done` outcome; only a
`chrome.tabs.create` rejection in the Shift (force-new) path can escape. -/
theorem nonforce_click_never_raises (favs : List Item) (wss : List Workspace)
    (h : Host) (fav item : Item) (mode : Option String) (pref : String)
    (ev : ClickEvent) (hev : ev.shiftKey = false) :
    (∃ a favs' h', clickFavorite favs h fav mode pref (some ev) = .done a favs' h') ∧
    (∃ a wss' h', openWorkspaceItem wss h item mode pref (some ev) = .done a wss' h') := by
  constructor
  · by_cases hm : openModeOf mode pref = "smart-switch"
    · cases htry : smartSwitchFavoriteTry favs h fav with
      | ok r =>
        obtain ⟨a, favs1, h1⟩ := r
        exact ⟨a, favs1, h1,
          by rw [clickFavorite_eq_try favs h fav mode pref ev hev hm, htry]⟩
      | error e =>
        exact ⟨.fallbackOpen, favs, openUrl h fav.url "new-tab",
          by rw [clickFavorite_eq_try favs h fav mode pref ev hev hm, htry]⟩
    · exact ⟨.openedPlain, favs, openUrl h fav.url (openModeOf mode pref),
        by unfold clickFavorite; simp [hm]⟩
  · by_cases hm : openModeOf mode pref = "smart-switch"
    · cases htry : smartSwitchWorkspaceTry wss h item with
      | ok r =>
        obtain ⟨a, wss1, h1⟩ := r
        exact ⟨a, wss1, h1,
          by rw [openWorkspaceItem_eq_try wss h item mode pref ev hev hm, htry]⟩
      | error e =>
        exact ⟨.fallbackOpen, wss, openUrl h item.url "new-tab",
          by rw [openWorkspaceItem_eq_try wss h item mode pref ev hev hm, htry]⟩
    · exact ⟨.openedPlain, wss, openUrl h item.url (openModeOf mode pref),
        by unfold openWorkspaceItem; simp [hm]⟩

/-- Witness for C6 (amended): even with every host failure injected, a
non-Shift smart-switch click on both handlers resolves to `.done`. -/
theorem nonforce_click_never_raises_witness :
    (∃ a favs' h',
      clickFavorite [] ⟨[], 0, 1, 0, [], [], true⟩ ⟨1, "u", none, none⟩
          none "smart-switch" (some ⟨false⟩)
        = .done a favs' h') ∧
    (∃ a wss' h',
      openWorkspaceItem [] ⟨[], 0, 1, 0, [], [], true⟩ ⟨1, "u", none, none⟩
          none "smart-switch" (some ⟨false⟩)
        = .done a wss' h') :=
  nonforce_click_never_raises [] [] ⟨[], 0, 1, 0, [], [], true⟩
    ⟨1, "u", none, none⟩ ⟨1, "u", none, none⟩ none "smart-switch" ⟨false⟩ rfl

/-- C9: when the effective open mode is not smart-switch, or no click event
is supplied, both click handlers only run `openUrl` on the item's url: the
outcome is `openedPlain` and the favorites/workspaces collections — hence
every item's `lastBoundTabId` and `lastBoundAt` — are returned unchanged. -/
theorem nonsmart_click_preserves_bindings (favs : List Item)
    (wss : List Workspace) (h : Host) (fav item : Item) (mode : Option String)
    (pref : String) (event : Option ClickEvent)
    (hns : openModeOf mode pref ≠ "smart-switch" ∨ event = none) :
    clickFavorite favs h fav mode pref event
      = .done .openedPlain favs (openUrl h fav.url (openModeOf mode pref)) ∧
    openWorkspaceItem wss h item mode pref event
      = .done .openedPlain wss (openUrl h item.url (openModeOf mode pref)) := by
  rcases hns with hm | rfl
  · cases event with
    | none => exact ⟨rfl, rfl⟩
    | some ev =>
      constructor
      · unfold clickFavorite; simp [hm]
      · unfold openWorkspaceItem; simp [hm]
  · exact ⟨rfl, rfl⟩

/-- Witness for C9: an explicit `new-tab` click on a bound favorite leaves
the favorites list untouched. -/
theorem nonsmart_click_preserves_bindings_witness :
    clickFavorite [⟨1, "u", some 5, some 3⟩] ⟨[], 7, 1, 0, [], [], false⟩
        ⟨1, "u", some 5, some 3⟩ (some "new-tab") "smart-switch" (some ⟨false⟩)
      = .done .openedPlain [⟨1, "u", some 5, some 3⟩]
          (openUrl ⟨[], 7, 1, 0, [], [], false⟩ "u"
            (openModeOf (some "new-tab") "smart-switch")) :=
  (nonsmart_click_preserves_bindings [⟨1, "u", some 5, some 3⟩] []
    ⟨[], 7, 1, 0, [], [], false⟩ ⟨1, "u", some 5, some 3⟩ ⟨2, "v", none, none⟩
    (some "new-tab") "smart-switch" (some ⟨false⟩) (Or.inl (by decide))).1
